import Mathlib

/-!
Verification development for the budget-finance import & categorization
pipeline.  The TypeScript sources are shallowly embedded: pure functions
become Lean functions on `String`/`List Char`/`ℚ`/`Int`; JavaScript `Date`
values are modelled as minutes since the Unix epoch (`Int`), with the
runtime's fixed UTC offset (minutes east of UTC) passed explicitly as `tz`
and the host locale's day-first preference as `localeDayFirst`; the
external AI classifier (an HTTP service) is a function parameter.  All
definitions use structural recursion so concrete inputs evaluate inside
the kernel.
-/

namespace BudgetFinance

/-! ## Models of JavaScript string and number primitives -/

/-- Lower-casing, as `String.prototype.toLowerCase` (ASCII-faithful). -/
def lowerChars (cs : List Char) : List Char := cs.map Char.toLower

/-- Source: `s.toLowerCase()`. -/
def lowerStr (s : String) : String := String.mk (lowerChars s.data)

/-- Whitespace test used by `trim`, `\s` and `split(/\r?\n/)` models. -/
def isWS (c : Char) : Bool := c.isWhitespace

/-- Source: `String.prototype.trim` on the character list. -/
def trimChars (cs : List Char) : List Char :=
  ((cs.dropWhile isWS).reverse.dropWhile isWS).reverse

/-- Source: `s.trim()`. -/
def trimStr (s : String) : String := String.mk (trimChars s.data)

/-- Source: `listStarts pat cs`: `cs` starts with `pat` (model of `startsWith`). -/
def listStarts : List Char → List Char → Bool
  | [], _ => true
  | _ :: _, [] => false
  | p :: ps, c :: cs => p == c && listStarts ps cs

/-- Source: `containsSeq pat cs`: `pat` occurs contiguously in `cs`
(model of `String.prototype.includes`). -/
def containsSeq (pat : List Char) : List Char → Bool
  | [] => pat.isEmpty
  | c :: cs => listStarts pat (c :: cs) || containsSeq pat cs

/-- Source: `s.includes(pat)`. -/
def jsIncludes (s pat : String) : Bool := containsSeq pat.data s.data

/-- Source: `s.startsWith(pat)`. -/
def jsStartsWith (s pat : String) : Bool := listStarts pat.data s.data

/-- Split a character list at every occurrence of `sep`
(model of `String.prototype.split` with a single-character separator). -/
def splitCharAux (sep : Char) (cur : List Char) : List Char → List (List Char)
  | [] => [cur.reverse]
  | c :: cs =>
    if c == sep then cur.reverse :: splitCharAux sep [] cs
    else splitCharAux sep (c :: cur) cs

/-- Source: `split(sep)` on a character list. -/
def splitChar (sep : Char) (cs : List Char) : List (List Char) := splitCharAux sep [] cs

/-- Drop one trailing carriage return, if present. -/
def dropCR (cs : List Char) : List Char :=
  if cs.getLast? = some '\r' then cs.dropLast else cs

/-- Source: `content.split(/\r?\n/)`: split at `'\n'`, then drop the `'\r'` that a
Windows line ending leaves at the end of each piece. -/
def jsSplitNewlines (s : String) : List String :=
  ((splitChar '\n' s.data).map dropCR).map String.mk

/-- Source: `v.replace(/"/g, '')`. -/
def stripQuotes (cs : List Char) : List Char := cs.filter (fun c => c ≠ '"')

/-- Source: `v.replace(/[$,\s]/g, '')` — the amount-cell cleaning. -/
def cleanAmount (cs : List Char) : List Char :=
  cs.filter (fun c => ¬(c = '$' ∨ c = ',' ∨ c.isWhitespace))

/-- Numeric value of a decimal digit character. -/
def digitVal (c : Char) : Nat := c.toNat - 48

/-- Value of a list of decimal digit characters (as `parseInt` would read it). -/
def natOfDigits (cs : List Char) : Nat := cs.foldl (fun a c => a * 10 + digitVal c) 0

/-- Model of the host primitive `parseFloat` on already-cleaned cells: an
optional sign, digits, and an optional fractional part; `none` models `NaN`.
(Exponent forms are not exercised by the parser's inputs and are modelled
as unparseable.)  The decimal value is built with a single `mkRat`. -/
def jsParseFloat (s : String) : Option ℚ :=
  let (sign, rest) : Int × List Char :=
    match s.data with
    | '-' :: r => (-1, r)
    | '+' :: r => (1, r)
    | r => (1, r)
  let intPart := rest.takeWhile Char.isDigit
  let rest2 := rest.dropWhile Char.isDigit
  let fracPart :=
    match rest2 with
    | '.' :: r2 => r2.takeWhile Char.isDigit
    | _ => []
  if intPart.isEmpty && fracPart.isEmpty then none
  else some (mkRat (sign * (natOfDigits (intPart ++ fracPart) : Int)) (10 ^ fracPart.length))

/-- Source: `parseFloat(s) || 0`: `NaN` (and `0` itself) collapse to `0`. -/
def jsParseFloatOr0 (s : String) : ℚ := (jsParseFloat s).getD 0

/-- Source: `Math.abs` on the rational model of JS numbers. -/
def jsAbs (q : ℚ) : ℚ := if q < 0 then -q else q

/-- JS string truthiness default: `o || dflt` for a nullable string. -/
def jsOrStr (o : Option String) (dflt : String) : String :=
  match o with
  | some s => if s = "" then dflt else s
  | none => dflt

/-- Source: `x || null` for a nullable string: the empty string collapses to `null`. -/
def truthyOpt (o : Option String) : Option String :=
  match o with
  | some s => if s = "" then none else some s
  | none => none

/-! ## Calendar arithmetic (proleptic Gregorian, Howard Hinnant's algorithms)

JS `Date` values are minutes since the Unix epoch.  `daysFromCivil` maps a
civil date to its day number (1970-01-01 = day 0); `civilFromDays` is its
inverse. -/

/-- Gregorian leap-year test. -/
def isLeapYear (y : Int) : Bool := (y % 4 == 0 && y % 100 != 0) || y % 400 == 0

/-- Length of month `m` (1–12) in year `y`. -/
def daysInMonth (y : Int) (m : Nat) : Nat :=
  match m with
  | 1 => 31 | 2 => if isLeapYear y then 29 else 28 | 3 => 31 | 4 => 30
  | 5 => 31 | 6 => 30 | 7 => 31 | 8 => 31 | 9 => 30 | 10 => 31 | 11 => 30
  | _ => 31

/-- Day number of the civil date `(y, m, d)` relative to 1970-01-01. -/
def daysFromCivil (y m d : Int) : Int :=
  let y' := if m ≤ 2 then y - 1 else y
  let era := y'.fdiv 400
  let yoe := y' - era * 400
  let doy := (153 * (m + (if m > 2 then -3 else 9)) + 2).fdiv 5 + d - 1
  let doe := yoe * 365 + yoe.fdiv 4 - yoe.fdiv 100 + doy
  era * 146097 + doe - 719468

/-- Civil date `(y, m, d)` of a day number relative to 1970-01-01. -/
def civilFromDays (z : Int) : Int × Int × Int :=
  let z' := z + 719468
  let era := z'.fdiv 146097
  let doe := z' - era * 146097
  let yoe := (doe - doe.fdiv 1460 + doe.fdiv 36524 - doe.fdiv 146096).fdiv 365
  let y := yoe + era * 400
  let doy := doe - (365 * yoe + yoe.fdiv 4 - yoe.fdiv 100)
  let mp := (5 * doy + 2).fdiv 153
  let d := doy - (153 * mp + 2).fdiv 5 + 1
  let m := if mp < 10 then mp + 3 else mp - 9
  (y + (if m ≤ 2 then 1 else 0), m, d)

/-- Day number produced by the JS constructor `new Date(y, mIdx, d)`
(month index based, with arbitrary month/day values normalized by carrying,
as JS does). -/
def jsMkDay (y mIdx d : Int) : Int :=
  daysFromCivil (y + mIdx.fdiv 12) (mIdx.fmod 12 + 1) 1 + (d - 1)

/-- Epoch minutes of `new Date(y, mIdx, d)`: local midnight of that civil
day in a runtime whose UTC offset is `tz` minutes east. -/
def mkLocalDate (tz y mIdx d : Int) : Int := 1440 * jsMkDay y mIdx d - tz

/-- Source: `d.getFullYear()`: the year of the epoch-minute value `t` in local time. -/
def localYear (tz t : Int) : Int := (civilFromDays ((t + tz).fdiv 1440)).1

/-- Zero-pad a number to two digits. -/
def pad2 (n : Nat) : String := (if n < 10 then "0" else "") ++ toString n

/-- Zero-pad a number to four digits. -/
def pad4 (n : Nat) : String :=
  (if n < 10 then "000" else if n < 100 then "00" else if n < 1000 then "0" else "") ++ toString n

/-- Source: `d.toISOString()` at minute precision (the parser only ever produces
whole-minute timestamps), for years 0–9999. -/
def isoRender (e : Int) : String :=
  let day := e.fdiv 1440
  let mins := (e.fmod 1440).toNat
  let c := civilFromDays day
  pad4 c.1.toNat ++ "-" ++ pad2 c.2.1.toNat ++ "-" ++ pad2 c.2.2.toNat ++ "T" ++
    pad2 (mins / 60) ++ ":" ++ pad2 (mins % 60) ++ ":00.000Z"

/-! ## Model of `Date.parse`

Covers the ES ISO forms the parser's callers exercise: a date-only
`YYYY-MM-DD` (interpreted at UTC midnight) and a date-time
`YYYY-MM-DDTHH:MMZ` (explicit UTC offset).  Other host-parseable shapes
are modelled as `NaN`; for the numeric slash/dash dates the parser feeds
it, the code's own numeric fallback paths reproduce the host result, so
the composed `parseDate` model stays observably faithful on those. -/

/-- The `YYYY-MM-DD` branch of the `Date.parse` model, returning the civil
date when the string is a calendar-valid date-only ISO form. -/
def isoDateOnlyParse (cs : List Char) : Option (Int × Int × Int) :=
  match cs with
  | [y1, y2, y3, y4, '-', m1, m2, '-', d1, d2] =>
    if [y1, y2, y3, y4, m1, m2, d1, d2].all Char.isDigit then
      let y : Int := (natOfDigits [y1, y2, y3, y4] : Int)
      let m := natOfDigits [m1, m2]
      let d := natOfDigits [d1, d2]
      if 1 ≤ m ∧ m ≤ 12 ∧ 1 ≤ d ∧ d ≤ daysInMonth y m then some (y, m, d) else none
    else none
  | _ => none

/-- The `YYYY-MM-DDTHH:MMZ` branch of the `Date.parse` model. -/
def isoDateTimeParse (cs : List Char) : Option Int :=
  match cs with
  | [y1, y2, y3, y4, '-', m1, m2, '-', d1, d2, 'T', h1, h2, ':', n1, n2, 'Z'] =>
    if [y1, y2, y3, y4, m1, m2, d1, d2, h1, h2, n1, n2].all Char.isDigit then
      let y : Int := (natOfDigits [y1, y2, y3, y4] : Int)
      let m := natOfDigits [m1, m2]
      let d := natOfDigits [d1, d2]
      let h := natOfDigits [h1, h2]
      let n := natOfDigits [n1, n2]
      if 1 ≤ m ∧ m ≤ 12 ∧ 1 ≤ d ∧ d ≤ daysInMonth y m ∧ h < 24 ∧ n < 60 then
        some (1440 * daysFromCivil y m d + 60 * h + n)
      else none
    else none
  | _ => none

/-- Source: `Date.parse(s)` model: epoch minutes, or `none` for `NaN`. -/
def jsDateParse (s : String) : Option Int :=
  match isoDateOnlyParse s.data with
  | some (y, m, d) => some (1440 * daysFromCivil y m d)
  | none => isoDateTimeParse s.data

/-! ## The date disambiguator (`parseDate` in `services/parser.ts`) -/

/-- The `dateFormatHint` argument: `'auto' | 'DMY' | 'MDY'`. -/
inductive DateHint
  | auto
  | dmy
  | mdy
deriving DecidableEq

/-- The ISO-like fast-path test: four digits followed by a dash or a
slash (the source's anchored regex). -/
def isoLikeStart (s : String) : Bool :=
  match s.data with
  | c1 :: c2 :: c3 :: c4 :: c5 :: _ =>
    c1.isDigit && c2.isDigit && c3.isDigit && c4.isDigit && (c5 == '-' || c5 == '/')
  | _ => false

/-- The anchored numeric date pattern: one or two digits, a slash or dash,
one or two digits, a slash or dash, then two to four digits; the three
captured groups are parsed by `parseInt`. -/
def numericSlashOrDash (s : String) : Option (Nat × Nat × Nat) :=
  let g1 := s.data.takeWhile Char.isDigit
  let r1 := s.data.dropWhile Char.isDigit
  if 1 ≤ g1.length && g1.length ≤ 2 then
    match r1 with
    | c :: r2 =>
      if c == '/' || c == '-' then
        let g2 := r2.takeWhile Char.isDigit
        let r3 := r2.dropWhile Char.isDigit
        if 1 ≤ g2.length && g2.length ≤ 2 then
          match r3 with
          | c2 :: r4 =>
            if c2 == '/' || c2 == '-' then
              let g3 := r4.takeWhile Char.isDigit
              let r5 := r4.dropWhile Char.isDigit
              if 2 ≤ g3.length && g3.length ≤ 4 && r5.isEmpty then
                some (natOfDigits g1, natOfDigits g2, natOfDigits g3)
              else none
            else none
          | [] => none
        else none
      else none
    | [] => none
  else none

/-- Two-digit year promotion: `if (p3 < 100) p3 += 2000`. -/
def promoteYear (p3 : Nat) : Nat := if p3 < 100 then p3 + 2000 else p3

/-- The maximal digit runs extracted by `raw.match(/(\d+)/g)`. -/
def digitGroupsAux (cur : List Char) : List Char → List (List Char)
  | [] => if cur.isEmpty then [] else [cur.reverse]
  | c :: cs =>
    if c.isDigit then digitGroupsAux (c :: cur) cs
    else if cur.isEmpty then digitGroupsAux [] cs
    else cur.reverse :: digitGroupsAux [] cs

/-- Source: `raw.match(/(\d+)/g)` (with no-match giving the empty list). -/
def digitGroups (s : String) : List (List Char) := digitGroupsAux [] s.data

/-- The three-numeric-group fallback of `parseDate` (lines 56–94): a
4-digit third group resolves day/month order by the `p1 > 12` test and
otherwise by the `Intl`-detected locale preference; a 4-digit first group
is treated as `YYYY/MM/DD`. -/
def parseDateParts (tz : Int) (localeDayFirst : Bool) (raw : String) : Option Int :=
  match digitGroups raw with
  | [g1, g2, g3] =>
    let p1 : Int := (natOfDigits g1 : Int)
    let p2 : Int := (natOfDigits g2 : Int)
    let p3 : Int := (natOfDigits g3 : Int)
    if p3 > 1000 then
      if p1 > 12 then some (mkLocalDate tz p3 (p2 - 1) p1)
      else if localeDayFirst then some (mkLocalDate tz p3 (p2 - 1) p1)
      else some (mkLocalDate tz p3 (p1 - 1) p2)
    else if p1 > 1000 then some (mkLocalDate tz p1 (p2 - 1) p3)
    else none
  | _ => none

/-- The generic `Date.parse` fallback of `parseDate` (lines 45–53): accept
a parse only when the local year lies strictly between 1900 and 2100, else
fall through to the numeric-groups step. -/
def parseDateGeneric (tz : Int) (localeDayFirst : Bool) (raw : String) : Option Int :=
  match jsDateParse raw with
  | some t =>
    if 1900 < localYear tz t ∧ localYear tz t < 2100 then some t
    else parseDateParts tz localeDayFirst raw
  | none => parseDateParts tz localeDayFirst raw

/-- The hint-driven numeric step of `parseDate` (lines 27–43): a string
matching the numeric slash/dash date pattern with a DMY or MDY hint is
interpreted positionally (two-digit years promoted by 2000); otherwise
fall through. -/
def parseDateNumeric (tz : Int) (localeDayFirst : Bool) (raw : String) (hint : DateHint) :
    Option Int :=
  match numericSlashOrDash raw, hint with
  | some (p1, _p2, p3), DateHint.dmy =>
    some (mkLocalDate tz (promoteYear p3) ((_p2 : Int) - 1) (p1 : Int))
  | some (p1, p2, p3), DateHint.mdy =>
    some (mkLocalDate tz (promoteYear p3) ((p1 : Int) - 1) (p2 : Int))
  | _, _ => parseDateGeneric tz localeDayFirst raw

/-- Source: `parseDate` (`services/parser.ts`, lines 14–97).  An ISO-like-prefixed
string that `Date.parse` accepts is returned unconditionally; otherwise
the hint step, then the year-checked generic parse, then the numeric
groups fallback. -/
def parseDate (tz : Int) (localeDayFirst : Bool) (dateStr : String) (hint : DateHint) :
    Option Int :=
  if dateStr = "" then none
  else
    let raw := trimStr dateStr
    if isoLikeStart raw then
      match jsDateParse raw with
      | some t => some t
      | none => parseDateNumeric tz localeDayFirst raw hint
    else parseDateNumeric tz localeDayFirst raw hint

/-- The spec's reading of the disambiguator (§4.2), for comparison with
`parseDate`: identical except that step 1 accepts an ISO parse only when
the resulting year lies strictly between 1900 and 2100. -/
def parseDateSpec (tz : Int) (localeDayFirst : Bool) (dateStr : String) (hint : DateHint) :
    Option Int :=
  if dateStr = "" then none
  else
    let raw := trimStr dateStr
    if isoLikeStart raw then
      match jsDateParse raw with
      | some t =>
        if 1900 < localYear tz t ∧ localYear tz t < 2100 then some t
        else parseDateNumeric tz localeDayFirst raw hint
      | none => parseDateNumeric tz localeDayFirst raw hint
    else parseDateNumeric tz localeDayFirst raw hint

/-! ## The CSV parser (`parseCSV` in `services/parser.ts`) -/

/-- A transaction as parsed from a statement file (`types.ts`).  `date` is
the `toISOString()` rendering of the parsed `Date`. -/
structure ParsedTransaction where
  date : String
  rawDate : String
  description : String
  amount : ℚ
deriving DecidableEq

/-- Decidable equality for `Except`, so parser results evaluate under
`decide`. -/
instance {ε α : Type} [DecidableEq ε] [DecidableEq α] : DecidableEq (Except ε α) := fun x y =>
  match x, y with
  | .ok a, .ok b =>
    if h : a = b then isTrue (by rw [h]) else isFalse (fun hc => by cases hc; exact h rfl)
  | .error a, .error b =>
    if h : a = b then isTrue (by rw [h]) else isFalse (fun hc => by cases hc; exact h rfl)
  | .ok _, .error _ => isFalse (fun hc => by cases hc)
  | .error _, .ok _ => isFalse (fun hc => by cases hc)

/-- Source: `findColumnIndex`: first header cell containing any keyword, scanned in
keyword-priority order (`none` models `-1`). -/
def findColumnIndex (header : List String) : List String → Option Nat
  | [] => none
  | k :: ks =>
    match header.findIdx? (fun h => jsIncludes h k) with
    | some i => some i
    | none => findColumnIndex header ks

/-- Source: `content.split(/\r?\n/).filter(line => line.trim() !== '')`. -/
def csvNonBlankLines (content : String) : List String :=
  (jsSplitNewlines content).filter (fun ln => trimStr ln ≠ "")

/-- The header row, lower-cased, trimmed and stripped of quotes. -/
def csvHeaderCells (content : String) : List String :=
  (splitChar ',' ((csvNonBlankLines content).headD "").data).map
    (fun cell => String.mk (stripQuotes (lowerChars (trimChars cell))))

/-- Detected date column. -/
def csvDateIdx (content : String) : Option Nat :=
  findColumnIndex (csvHeaderCells content) ["date"]

/-- Detected description column. -/
def csvDescIdx (content : String) : Option Nat :=
  findColumnIndex (csvHeaderCells content) ["description", "narrative", "memo", "details", "payee"]

/-- Detected amount column. -/
def csvAmountIdx (content : String) : Option Nat :=
  findColumnIndex (csvHeaderCells content) ["amount"]

/-- Detected credit column. -/
def csvCreditIdx (content : String) : Option Nat :=
  findColumnIndex (csvHeaderCells content) ["credit"]

/-- Detected debit column. -/
def csvDebitIdx (content : String) : Option Nat :=
  findColumnIndex (csvHeaderCells content) ["debit"]

/-- Which columns provide the amount. -/
inductive AmountCols
  | amountCol (i : Nat)
  | creditDebit (c d : Nat)

/-- The quote-respecting row split
`line.split(/,(?=(?:(?:[^"]*"){2})*[^"]*$)/)`: split at a comma exactly
when the remainder of the line holds an even number of quotes. -/
def csvSplitRowAux (cur : List Char) : List Char → List (List Char)
  | [] => [cur.reverse]
  | c :: cs =>
    if c == ',' && (cs.count '"') % 2 == 0 then cur.reverse :: csvSplitRowAux [] cs
    else csvSplitRowAux (c :: cur) cs

/-- Row values: quote-respecting split, then `v.trim().replace(/"/g,'')`. -/
def csvRowValues (line : String) : List String :=
  (csvSplitRowAux [] line.data).map (fun v => String.mk (stripQuotes (trimChars v)))

/-- Amount of a row: a single amount cell cleaned and float-parsed
(empty cell → `'0'`), or `credit - Math.abs(debit)` with each cell cleaned
the same way. -/
def csvRowAmount (cols : AmountCols) (values : List String) : ℚ :=
  match cols with
  | .amountCol i =>
    let raw := values.getD i ""
    jsParseFloatOr0 (if raw = "" then "0" else String.mk (cleanAmount raw.data))
  | .creditDebit ci di =>
    let cRaw := values.getD ci ""
    let dRaw := values.getD di ""
    let credit := jsParseFloatOr0 (if cRaw = "" then "0" else String.mk (cleanAmount cRaw.data))
    let debit := jsParseFloatOr0 (if dRaw = "" then "0" else String.mk (cleanAmount dRaw.data))
    credit - jsAbs debit

/-- Processing of one body row (`parseCSV` lines 131–173): skip short rows,
parse the amount, parse the date (skip on failure), skip empty
descriptions, and emit the transaction with the ISO-rendered date. -/
def parseRow (tz : Int) (localeDayFirst : Bool) (hint : DateHint) (headerLen : Nat)
    (dIdx descIdx : Nat) (cols : AmountCols) (line : String) : Option ParsedTransaction :=
  let values := csvRowValues line
  if values.length < headerLen then none
  else
    let amount := csvRowAmount cols values
    let dateValue := values.getD dIdx ""
    match parseDate tz localeDayFirst dateValue hint with
    | none => none
    | some dt =>
      let description := values.getD descIdx ""
      if description = "" then none
      else some { date := isoRender dt, rawDate := dateValue, description := description,
                  amount := amount }

/-- All transactions successfully parsed from the body rows. -/
def csvParsedRows (tz : Int) (localeDayFirst : Bool) (content : String) (hint : DateHint) :
    List ParsedTransaction :=
  let cols : AmountCols :=
    match csvAmountIdx content with
    | some i => .amountCol i
    | none => .creditDebit ((csvCreditIdx content).getD 0) ((csvDebitIdx content).getD 0)
  ((csvNonBlankLines content).drop 1).filterMap
    (parseRow tz localeDayFirst hint (csvHeaderCells content).length
      ((csvDateIdx content).getD 0) ((csvDescIdx content).getD 0) cols)

/-- Source: `parseCSV` (`services/parser.ts`, lines 99–180).  Fewer than two
non-blank lines returns the empty list; missing date, description or
amount columns and a zero yield throw (modelled as `Except.error`). -/
def parseCSV (tz : Int) (localeDayFirst : Bool) (content : String) (hint : DateHint) :
    Except String (List ParsedTransaction) :=
  if (csvNonBlankLines content).length < 2 then .ok []
  else if csvDateIdx content = none then
    .error "Could not automatically detect the Date column."
  else if csvDescIdx content = none then
    .error "Could not automatically detect the Description column."
  else if csvAmountIdx content = none ∧
      ¬(csvCreditIdx content ≠ none ∧ csvDebitIdx content ≠ none) then
    .error "Could not detect amount columns."
  else
    let ts := csvParsedRows tz localeDayFirst content hint
    if ts = [] then .error "No valid transactions could be parsed from the file."
    else .ok ts

/-! ## Data model (`types.ts`) -/

/-- A category of the catalog. -/
structure Category where
  id : String
  name : String
  color : String
  icon : String
deriving DecidableEq

/-- Source: `RuleConditionType`. -/
inductive RuleConditionType
  | contains
  | startsWith
  | equals
deriving DecidableEq

/-- A user-defined categorization rule. -/
structure Rule where
  id : String
  conditionType : RuleConditionType
  conditionValue : String
  categoryId : String
deriving DecidableEq

/-- A persisted transaction.  `rawDate` is carried by the runtime objects
the import path builds (the spread of the parsed transaction) even though
the TS interface omits it. -/
structure Transaction where
  id : String
  date : String
  rawDate : Option String
  description : String
  amount : ℚ
  categoryId : Option String
  notes : Option String
  categorizedByRule : Bool
  categorizedByAI : Bool
deriving DecidableEq

/-! ## Rule engine (the inlined matcher of `services/categorizer.ts`
lines 58–71 and 165–184, and `database.ts` `applyRule`) -/

/-- One rule's condition against the lower-cased description. -/
def ruleMatches (rule : Rule) (descriptionLower : String) : Bool :=
  let valueLower := lowerStr rule.conditionValue
  match rule.conditionType with
  | .contains => jsIncludes descriptionLower valueLower
  | .startsWith => jsStartsWith descriptionLower valueLower
  | .equals => descriptionLower == valueLower

/-- The matching loop: first rule whose condition holds wins and the loop
breaks; `none` when no rule matches. -/
def ruleFirstMatchAux (descriptionLower : String) : List Rule → Option String
  | [] => none
  | r :: rs =>
    if ruleMatches r descriptionLower then some r.categoryId
    else ruleFirstMatchAux descriptionLower rs

/-- First matching rule's `categoryId` for a description. -/
def ruleFirstMatch (rules : List Rule) (description : String) : Option String :=
  ruleFirstMatchAux (lowerStr description) rules

/-! ## AI batch classifier client (`services/aiClient.ts`) -/

/-- Source: `Map.get` on the insertion-ordered map modelled as an association
list where later `set` calls overwrite earlier ones. -/
def mapGet (m : List (Int × String)) (k : Int) : Option String :=
  ((m.filter (fun p => p.1 = k)).getLast?).map (fun p => p.2)

/-- Source: `getCategoryBatchFromAIService` (lines 107–125): an HTTP failure
(`response = none`) yields the empty map; otherwise every response entry
is `set` into the result map.  The source's `typeof item.index ===
'number' && typeof item.categoryId === 'string'` guards are type-level in
this embedding, so no entry is dropped: the function performs no
filtering against the requested indices or the supplied catalog. -/
def getCategoryBatchFromAIService (batch : List (String × Int)) (categories : List Category)
    (response : Option (List (Int × String))) : List (Int × String) :=
  match batch, categories, response with
  | _, _, none => []
  | _, _, some results => results

/-- The external classifier as an oracle: the response body for a
request batch, or `none` for a non-2xx response. -/
def AIOracle : Type := List (String × Int) → Option (List (Int × String))

/-! ## The pipeline orchestrator (`services/categorizer.ts`) -/

/-- The id template `txn-(Date.now())-(index)`, with the call-time clock
value passed in as `now`. -/
def mkId (now index : Nat) : String := "txn-" ++ toString now ++ "-" ++ toString index

/-- Source: `array.forEach((x, index) => ...)` index bookkeeping. -/
def enumFrom (n : Nat) : List α → List (Nat × α)
  | [] => []
  | x :: xs => (n, x) :: enumFrom (n + 1) xs

/-- Consecutive slices of size `n` (the `slice(i, i + batchSize)` loop),
written with an accumulator so it evaluates structurally. -/
def chunksAux (n : Nat) (cur : List α) (cnt : Nat) : List α → List (List α)
  | [] => if cur.isEmpty then [] else [cur.reverse]
  | x :: xs =>
    if n ≤ cnt + 1 then (x :: cur).reverse :: chunksAux n [] 0 xs
    else chunksAux n (x :: cur) (cnt + 1) xs

/-- Batches of at most `n` consecutive elements (for the positive batch
sizes `getBatchSize` guarantees). -/
def chunks (n : Nat) (l : List α) : List (List α) := chunksAux n [] 0 l

/-- Source: `categoryNameToIdMap.get('income')`: the id of the last catalog
category whose lower-cased name is `"income"` (later `Map.set` calls on
the same key overwrite earlier ones). -/
def incomeLookup (categories : List Category) : Option String :=
  ((categories.filter (fun c => lowerStr c.name = "income")).getLast?).map (fun c => c.id)

/-- Assignment of one AI-batch item (`categorizeTransactions` lines
114–131): the AI result with JS truthiness applied, the income heuristic
for still-uncategorized inflows, and the `'cat-uncategorized'` default. -/
def processAIItem (now : Nat) (categories : List Category) (got : Option String)
    (index : Nat) (pt : ParsedTransaction) : Transaction :=
  let categorizedByAI := got.isSome
  let categoryId : Option String :=
    match got with
    | some c => some c
    | none => if 0 < pt.amount then truthyOpt (incomeLookup categories) else none
  { id := mkId now index, date := pt.date, rawDate := some pt.rawDate,
    description := pt.description, amount := pt.amount,
    categoryId := some (jsOrStr categoryId "cat-uncategorized"),
    notes := none, categorizedByRule := false, categorizedByAI := categorizedByAI }

/-- The never-reached value of an unfilled array slot (`finalTransactions`
is fully covered by the rule pass and the AI batches; see
`lookup_isSome_of_key_mem`). -/
def holeTransaction : Transaction :=
  { id := "", date := "", rawDate := none, description := "", amount := 0,
    categoryId := none, notes := none, categorizedByRule := false, categorizedByAI := false }

/-- The request payload of one batch. -/
def batchPrompt (batch : List (Nat × α)) (descriptionOf : α → String) : List (String × Int) :=
  batch.map (fun p => (descriptionOf p.2, (p.1 : Int)))

/-- The indexed rule-unmatched remainder (`transactionsForAI`). -/
def categorizeRuleUnmatched (parsedTransactions : List ParsedTransaction) (rules : List Rule) :
    List (Nat × ParsedTransaction) :=
  (enumFrom 0 parsedTransactions).filter
    (fun p => (ruleFirstMatch rules p.2.description).isNone)

/-- One AI-batch item's processing within its batch: the batch's oracle
response, looked up at the item's original index.  (The per-batch
`aiResults` map of the source is recomputed at each item; the oracle model
is pure, so this equals computing it once per batch.) -/
def categorizeItemProcess (now : Nat) (categories : List Category) (ai : AIOracle)
    (batch : List (Nat × ParsedTransaction)) (index : Nat) (pt : ParsedTransaction) :
    Transaction :=
  processAIItem now categories
    (truthyOpt (mapGet
      (getCategoryBatchFromAIService (batchPrompt batch ParsedTransaction.description) categories
        (ai (batchPrompt batch ParsedTransaction.description)))
      (index : Int)))
    index pt

/-- The AI pass of the import path: sequential batches over the
rule-unmatched remainder, each item keyed by its original index. -/
def categorizeAIOut (now batchSize : Nat) (ai : AIOracle)
    (parsedTransactions : List ParsedTransaction) (rules : List Rule)
    (categories : List Category) : List (Nat × Transaction) :=
  ((chunks batchSize (categorizeRuleUnmatched parsedTransactions rules)).map (fun batch =>
    batch.map (fun p => (p.1, categorizeItemProcess now categories ai batch p.1 p.2)))).flatten

/-- Source: `categorizeTransactions` (`services/categorizer.ts` lines 38–138):
rule pass assigning ids, then sequential AI batches over the rule-unmatched
remainder keyed by original index, with income fallback.  The external
call is the oracle `ai`; `now` is the `Date.now()` clock value and
`batchSize` the `getBatchSize()` result. -/
def categorizeTransactions (now batchSize : Nat) (ai : AIOracle)
    (parsedTransactions : List ParsedTransaction) (rules : List Rule)
    (categories : List Category) : List Transaction :=
  (enumFrom 0 parsedTransactions).map (fun p =>
    match ruleFirstMatch rules p.2.description with
    | some cid =>
      { id := mkId now p.1, date := p.2.date, rawDate := some p.2.rawDate,
        description := p.2.description, amount := p.2.amount,
        categoryId := some (jsOrStr (some cid) "cat-uncategorized"),
        notes := none, categorizedByRule := true, categorizedByAI := false }
    | none =>
      ((categorizeAIOut now batchSize ai parsedTransactions rules categories).lookup p.1).getD
        holeTransaction)

/-- Assignment of one AI-batch item on the recategorize path
(`recategorizeUncategorizedTransactions` lines 216–232): same logic as
`processAIItem` but updating the existing transaction in place. -/
def recatAIItem (categories : List Category) (got : Option String) (tx : Transaction) :
    Transaction :=
  let categorizedByAI := got.isSome
  let categoryId : Option String :=
    match got with
    | some c => some c
    | none => if 0 < tx.amount then truthyOpt (incomeLookup categories) else none
  { tx with categoryId := some (jsOrStr categoryId "cat-uncategorized"),
            categorizedByRule := false, categorizedByAI := categorizedByAI }

/-- The indexed rule-unmatched remainder of the recategorize path
(`toSendToAI`). -/
def recategorizeRuleUnmatched (uncategorized : List Transaction) (rules : List Rule) :
    List (Nat × Transaction) :=
  (enumFrom 0 uncategorized).filter (fun p => (ruleFirstMatch rules p.2.description).isNone)

/-- One AI-batch item's processing on the recategorize path (see
`categorizeItemProcess` for the per-batch response note). -/
def recategorizeItemProcess (categories : List Category) (ai : AIOracle)
    (batch : List (Nat × Transaction)) (index : Nat) (tx : Transaction) : Transaction :=
  recatAIItem categories
    (truthyOpt (mapGet
      (getCategoryBatchFromAIService (batchPrompt batch Transaction.description) categories
        (ai (batchPrompt batch Transaction.description)))
      (index : Int)))
    tx

/-- The AI pass of the recategorize path. -/
def recategorizeAIOut (batchSize : Nat) (ai : AIOracle) (uncategorized : List Transaction)
    (rules : List Rule) (categories : List Category) : List (Nat × Transaction) :=
  ((chunks batchSize (recategorizeRuleUnmatched uncategorized rules)).map (fun batch =>
    batch.map (fun p => (p.1, recategorizeItemProcess categories ai batch p.1 p.2)))).flatten

/-- Source: `recategorizeUncategorizedTransactions` (`services/categorizer.ts`
lines 145–246): rule pass, sequential AI batches, income fallback, and the
safety fill that leaves an untouched slot at the original transaction. -/
def recategorizeUncategorizedTransactions (batchSize : Nat) (ai : AIOracle)
    (uncategorized : List Transaction) (rules : List Rule)
    (categories : List Category) : List Transaction :=
  (enumFrom 0 uncategorized).map (fun p =>
    match ruleFirstMatch rules p.2.description with
    | some cid =>
      { p.2 with categoryId := some (jsOrStr (some cid) "cat-uncategorized"),
                 categorizedByRule := true, categorizedByAI := false }
    | none =>
      ((recategorizeAIOut batchSize ai uncategorized rules categories).lookup p.1).getD p.2)

/-! ## Import-path deduplication (`pages/Upload.tsx`, `handleFileSelect`
lines 53–64) -/

/-- Collapse every maximal whitespace run to a single space
(`replace(/\s+/g, ' ')`), tracking whether the previous character was
whitespace so the recursion stays structural. -/
def collapseWSAux (prevWS : Bool) : List Char → List Char
  | [] => []
  | c :: cs =>
    if c.isWhitespace then
      (if prevWS then collapseWSAux true cs else ' ' :: collapseWSAux true cs)
    else c :: collapseWSAux false cs

/-- The dedup normalizer
`s => s ? s.trim().toLowerCase().replace(/\s+/g, ' ') : ''`. -/
def normalize (s : String) : String :=
  if s = "" then "" else String.mk (collapseWSAux false (lowerChars (trimChars s.data)))

/-- The fingerprint template string `date|amount|normalize(description)`,
modelled as the component triple: JS number printing is injective and `|`
occurs in neither an ISO date nor a printed number, so string equality of
the keys coincides with componentwise equality. -/
def fingerprintOfParsed (p : ParsedTransaction) : String × ℚ × String :=
  (p.date, p.amount, normalize p.description)

/-- Fingerprint of a ledger transaction (same template). -/
def fingerprintOfTransaction (t : Transaction) : String × ℚ × String :=
  (t.date, t.amount, normalize t.description)

/-- The dedup filter of `handleFileSelect`: build the fingerprint set of
the existing ledger once (`Set.has` is list membership here), and keep the
parsed transactions whose key is absent. -/
def dedupeNewTransactions (existing : List Transaction) (parsed : List ParsedTransaction) :
    List ParsedTransaction :=
  let existingSet := existing.map fingerprintOfTransaction
  parsed.filter (fun p => ¬ fingerprintOfParsed p ∈ existingSet)

/-! ## Rule application to the ledger (`services/database.ts`, `applyRule`
lines 242–279) and manual category edit (`pages/Upload.tsx`,
`handleCategoryChange` lines 111–115) -/

/-- The transactions `applyRule` rewrites: every ledger transaction whose
description matches the rule and whose category differs gets the rule's
category with provenance `(rule := true, ai := false)`. -/
def applyRuleUpdates (rule : Rule) (transactions : List Transaction) : List Transaction :=
  transactions.filterMap (fun t =>
    if ruleMatches rule (lowerStr t.description) ∧ t.categoryId ≠ some rule.categoryId then
      some { t with categoryId := some rule.categoryId,
                    categorizedByRule := true, categorizedByAI := false }
    else none)

/-- The manual category edit: the transaction with the given id gets the
chosen category and both provenance flags cleared. -/
def handleCategoryChange (transactions : List Transaction) (transactionId newCategoryId : String) :
    List Transaction :=
  transactions.map (fun t =>
    if t.id = transactionId then
      { t with categoryId := some newCategoryId,
               categorizedByRule := false, categorizedByAI := false }
    else t)

/-! ## Helper lemmas -/

theorem enumFrom_getElem? (l : List α) (n i : Nat) :
    (enumFrom n l)[i]? = l[i]?.map (fun x => (n + i, x)) := by
  induction l generalizing n i with
  | nil => simp [enumFrom]
  | cons x xs ih =>
    cases i with
    | zero => simp [enumFrom]
    | succ j => simpa [enumFrom, Nat.add_assoc, Nat.add_comm 1 j] using ih (n + 1) j

theorem enumFrom_length (l : List α) (n : Nat) : (enumFrom n l).length = l.length := by
  induction l generalizing n with
  | nil => rfl
  | cons x xs ih => simp [enumFrom, ih]

theorem mem_enumFrom {l : List α} {n i : Nat} {x : α} (h : (i, x) ∈ enumFrom n l) :
    n ≤ i ∧ l[i - n]? = some x := by
  induction l generalizing n with
  | nil => simp [enumFrom] at h
  | cons y ys ih =>
    simp only [enumFrom, List.mem_cons] at h
    rcases h with h | h
    · cases h; simp
    · obtain ⟨h1, h2⟩ := ih h
      refine ⟨by omega, ?_⟩
      have hi : i - n = (i - (n + 1)) + 1 := by omega
      simpa [hi] using h2

theorem chunksAux_flatten (n : Nat) (l cur : List α) (cnt : Nat) :
    (chunksAux n cur cnt l).flatten = cur.reverse ++ l := by
  induction l generalizing cur cnt with
  | nil =>
    by_cases h : cur.isEmpty
    · simp [chunksAux, h, List.isEmpty_iff.mp h]
    · simp [chunksAux, h]
  | cons x xs ih =>
    by_cases h : n ≤ cnt + 1
    · simp [chunksAux, h, ih]
    · simp [chunksAux, h, ih (x :: cur) (cnt + 1)]

theorem chunks_flatten (n : Nat) (l : List α) : (chunks n l).flatten = l := by
  simpa using chunksAux_flatten n l [] 0

theorem mem_of_mem_chunks {n : Nat} {l b : List α} {x : α}
    (hb : b ∈ chunks n l) (hx : x ∈ b) : x ∈ l := by
  rw [← chunks_flatten n l]
  exact List.mem_flatten.mpr ⟨b, hb, hx⟩

theorem exists_chunk_of_mem {n : Nat} {l : List α} {x : α} (hx : x ∈ l) :
    ∃ b ∈ chunks n l, x ∈ b := by
  rw [← chunks_flatten n l] at hx
  exact List.mem_flatten.mp hx

theorem lookupEqSome_mem {l : List (Nat × β)} {k : Nat} {v : β}
    (h : l.lookup k = some v) : (k, v) ∈ l := by
  induction l with
  | nil => simp [List.lookup] at h
  | cons p t ih =>
    rw [List.lookup] at h
    by_cases hk : k == p.1
    · simp only [hk] at h
      have hkk : k = p.1 := by simpa using hk
      have hv : p.2 = v := by simpa using h
      cases p
      simp_all
    · simp only [Bool.not_eq_true] at hk
      simp only [hk] at h
      exact List.mem_cons_of_mem _ (ih h)

theorem lookup_isSome_of_key_mem {l : List (Nat × β)} {k : Nat} {v : β}
    (h : (k, v) ∈ l) : (l.lookup k).isSome := by
  induction l with
  | nil => simp at h
  | cons p t ih =>
    rw [List.lookup]
    by_cases hk : k == p.1
    · simp [hk]
    · simp only [Bool.not_eq_true] at hk
      simp only [hk]
      rcases List.mem_cons.mp h with h1 | h1
      · cases p
        cases h1
        simp at hk
      · exact ih h1

/-- Characterize a member of the flattened AI-batch output: it comes from
some chunk `b`, pairs a key of an item of `b` with the per-item processing
applied at that key. -/
theorem mem_chunkProcess {n : Nat} {L : List (Nat × α)} {g : List (Nat × α) → Nat → α → β}
    {k : Nat} {v : β}
    (h : (k, v) ∈ ((chunks n L).map (fun b => b.map (fun p => (p.1, g b p.1 p.2)))).flatten) :
    ∃ b p, b ∈ chunks n L ∧ p ∈ b ∧ p.1 = k ∧ v = g b k p.2 := by
  rcases List.mem_flatten.mp h with ⟨s, hs, hv⟩
  rcases List.mem_map.mp hs with ⟨b, hb, rfl⟩
  rcases List.mem_map.mp hv with ⟨p, hp, he⟩
  have h1 : p.1 = k := congrArg Prod.fst he
  have h2 : v = g b k p.2 := by
    have := congrArg Prod.snd he
    simpa [h1] using this.symm
  exact ⟨b, p, hb, hp, h1, h2⟩

/-- Every key of the batched input reappears as a key of the flattened
AI-batch output. -/
theorem key_mem_chunkProcess {n : Nat} {L : List (Nat × α)} {g : List (Nat × α) → Nat → α → β}
    {k : Nat} {x : α} (h : (k, x) ∈ L) :
    (k, g (Classical.choose (exists_chunk_of_mem (n := n) h)) k x) ∈
      ((chunks n L).map (fun b => b.map (fun p => (p.1, g b p.1 p.2)))).flatten := by
  obtain ⟨hb, hx⟩ := Classical.choose_spec (exists_chunk_of_mem (n := n) h)
  exact List.mem_flatten.mpr
    ⟨_, List.mem_map.mpr ⟨_, hb, rfl⟩, List.mem_map.mpr ⟨(k, x), hx, rfl⟩⟩

/-- The import-path result at index `i`, in terms of the rule match of the
row at `i`. -/
theorem categorize_getElem? (now batchSize : Nat) (ai : AIOracle)
    (pts : List ParsedTransaction) (rules : List Rule) (cats : List Category)
    {i : Nat} {pt : ParsedTransaction} (hp : pts[i]? = some pt) :
    (categorizeTransactions now batchSize ai pts rules cats)[i]? = some (
      match ruleFirstMatch rules pt.description with
      | some cid =>
        { id := mkId now i, date := pt.date, rawDate := some pt.rawDate,
          description := pt.description, amount := pt.amount,
          categoryId := some (jsOrStr (some cid) "cat-uncategorized"),
          notes := none, categorizedByRule := true, categorizedByAI := false }
      | none =>
        ((categorizeAIOut now batchSize ai pts rules cats).lookup i).getD holeTransaction) := by
  have h0 : (enumFrom 0 pts)[i]? = some (i, pt) := by
    rw [enumFrom_getElem?, hp]; simp
  rw [categorizeTransactions, List.getElem?_map, h0]
  rfl

/-- Lookup in the import-path AI output at a rule-unmatched index: it
hits, and the value is the processing of that row within some batch. -/
theorem categorizeAIOut_lookup (now batchSize : Nat) (ai : AIOracle)
    (pts : List ParsedTransaction) (rules : List Rule) (cats : List Category)
    {i : Nat} {pt : ParsedTransaction} (hp : pts[i]? = some pt)
    (hr : ruleFirstMatch rules pt.description = none) :
    ∃ b, (categorizeAIOut now batchSize ai pts rules cats).lookup i =
      some (categorizeItemProcess now cats ai b i pt) := by
  have hmem0 : (i, pt) ∈ enumFrom 0 pts :=
    List.mem_iff_getElem?.mpr ⟨i, by rw [enumFrom_getElem?, hp]; simp⟩
  have hmem : (i, pt) ∈ categorizeRuleUnmatched pts rules :=
    List.mem_filter.mpr ⟨hmem0, by simp [hr]⟩
  have hkey := key_mem_chunkProcess (n := batchSize)
    (g := categorizeItemProcess now cats ai) hmem
  have hsome : ((categorizeAIOut now batchSize ai pts rules cats).lookup i).isSome :=
    lookup_isSome_of_key_mem hkey
  obtain ⟨v, hv⟩ := Option.isSome_iff_exists.mp hsome
  have hvmem : (i, v) ∈ categorizeAIOut now batchSize ai pts rules cats := lookupEqSome_mem hv
  obtain ⟨b, p, hb, hpb, hp1, hveq⟩ := mem_chunkProcess (n := batchSize)
    (g := categorizeItemProcess now cats ai) hvmem
  have hpL : p ∈ categorizeRuleUnmatched pts rules := mem_of_mem_chunks hb hpb
  have hpidx : (p.1, p.2) ∈ enumFrom 0 pts := by
    simpa using (List.mem_filter.mp hpL).1
  have hp2 : pts[p.1]? = some p.2 := by simpa using (mem_enumFrom hpidx).2
  have hppt : p.2 = pt := by
    rw [hp1] at hp2
    rw [hp] at hp2
    exact Option.some_inj.mp hp2.symm
  exact ⟨b, by rw [hv, hveq, hppt]⟩

/-- The import-path result at a rule-unmatched index is the AI/income
processing of that row against the oracle response for its batch. -/
theorem categorize_ai_at (now batchSize : Nat) (ai : AIOracle)
    (pts : List ParsedTransaction) (rules : List Rule) (cats : List Category)
    {i : Nat} {pt : ParsedTransaction} (hp : pts[i]? = some pt)
    (hr : ruleFirstMatch rules pt.description = none) :
    ∃ req, (categorizeTransactions now batchSize ai pts rules cats)[i]? =
      some (processAIItem now cats
        (truthyOpt (mapGet (getCategoryBatchFromAIService req cats (ai req)) (i : Int)))
        i pt) := by
  obtain ⟨b, hb⟩ := categorizeAIOut_lookup now batchSize ai pts rules cats hp hr
  refine ⟨batchPrompt b ParsedTransaction.description, ?_⟩
  rw [categorize_getElem? now batchSize ai pts rules cats hp, hr, hb]
  rfl

/-- The recategorize-path result at index `i`, in terms of the rule match
of the transaction at `i`. -/
theorem recategorize_getElem? (batchSize : Nat) (ai : AIOracle)
    (uncat : List Transaction) (rules : List Rule) (cats : List Category)
    {i : Nat} {tx : Transaction} (hp : uncat[i]? = some tx) :
    (recategorizeUncategorizedTransactions batchSize ai uncat rules cats)[i]? = some (
      match ruleFirstMatch rules tx.description with
      | some cid =>
        { tx with categoryId := some (jsOrStr (some cid) "cat-uncategorized"),
                  categorizedByRule := true, categorizedByAI := false }
      | none =>
        ((recategorizeAIOut batchSize ai uncat rules cats).lookup i).getD tx) := by
  have h0 : (enumFrom 0 uncat)[i]? = some (i, tx) := by
    rw [enumFrom_getElem?, hp]; simp
  rw [recategorizeUncategorizedTransactions, List.getElem?_map, h0]
  rfl

/-- Lookup in the recategorize-path AI output at a rule-unmatched index. -/
theorem recategorizeAIOut_lookup (batchSize : Nat) (ai : AIOracle)
    (uncat : List Transaction) (rules : List Rule) (cats : List Category)
    {i : Nat} {tx : Transaction} (hp : uncat[i]? = some tx)
    (hr : ruleFirstMatch rules tx.description = none) :
    ∃ b, (recategorizeAIOut batchSize ai uncat rules cats).lookup i =
      some (recategorizeItemProcess cats ai b i tx) := by
  have hmem0 : (i, tx) ∈ enumFrom 0 uncat :=
    List.mem_iff_getElem?.mpr ⟨i, by rw [enumFrom_getElem?, hp]; simp⟩
  have hmem : (i, tx) ∈ recategorizeRuleUnmatched uncat rules :=
    List.mem_filter.mpr ⟨hmem0, by simp [hr]⟩
  have hkey := key_mem_chunkProcess (n := batchSize)
    (g := recategorizeItemProcess cats ai) hmem
  have hsome : ((recategorizeAIOut batchSize ai uncat rules cats).lookup i).isSome :=
    lookup_isSome_of_key_mem hkey
  obtain ⟨v, hv⟩ := Option.isSome_iff_exists.mp hsome
  have hvmem : (i, v) ∈ recategorizeAIOut batchSize ai uncat rules cats := lookupEqSome_mem hv
  obtain ⟨b, p, hb, hpb, hp1, hveq⟩ := mem_chunkProcess (n := batchSize)
    (g := recategorizeItemProcess cats ai) hvmem
  have hpL : p ∈ recategorizeRuleUnmatched uncat rules := mem_of_mem_chunks hb hpb
  have hpidx : (p.1, p.2) ∈ enumFrom 0 uncat := by
    simpa using (List.mem_filter.mp hpL).1
  have hp2 : uncat[p.1]? = some p.2 := by simpa using (mem_enumFrom hpidx).2
  have hppt : p.2 = tx := by
    rw [hp1] at hp2
    rw [hp] at hp2
    exact Option.some_inj.mp hp2.symm
  exact ⟨b, by rw [hv, hveq, hppt]⟩

/-- The recategorize-path result at a rule-unmatched index is the
AI/income update of that transaction against its batch's oracle
response. -/
theorem recategorize_ai_at (batchSize : Nat) (ai : AIOracle)
    (uncat : List Transaction) (rules : List Rule) (cats : List Category)
    {i : Nat} {tx : Transaction} (hp : uncat[i]? = some tx)
    (hr : ruleFirstMatch rules tx.description = none) :
    ∃ req, (recategorizeUncategorizedTransactions batchSize ai uncat rules cats)[i]? =
      some (recatAIItem cats
        (truthyOpt (mapGet (getCategoryBatchFromAIService req cats (ai req)) (i : Int)))
        tx) := by
  obtain ⟨b, hb⟩ := recategorizeAIOut_lookup batchSize ai uncat rules cats hp hr
  refine ⟨batchPrompt b Transaction.description, ?_⟩
  rw [recategorize_getElem? batchSize ai uncat rules cats hp, hr, hb]
  rfl

/-- An ISO-like-prefixed string starts with more than two digits. -/
theorem isoLike_digits {s : String} (h : isoLikeStart s = true) :
    2 < (s.data.takeWhile Char.isDigit).length := by
  unfold isoLikeStart at h
  split at h
  next c1 c2 c3 c4 c5 rest heq =>
    simp only [Bool.and_eq_true] at h
    obtain ⟨⟨⟨⟨h1, h2⟩, h3⟩, h4⟩, -⟩ := h
    rw [heq]
    simp [List.takeWhile_cons, h1, h2, h3, h4]
  next => exact absurd h (by simp)

/-- The numeric slash/dash pattern (first group at most two digits) never
overlaps the ISO-like prefix (four leading digits). -/
theorem numeric_not_isoLike {s : String} {v : Nat × Nat × Nat}
    (h : numericSlashOrDash s = some v) : isoLikeStart s = false := by
  cases hb : isoLikeStart s with
  | false => rfl
  | true =>
    have hlen := isoLike_digits hb
    unfold numericSlashOrDash at h
    rw [if_neg (by simp only [Bool.and_eq_true, decide_eq_true_eq, not_and]; omega)] at h
    exact absurd h (by simp)

/-- An ISO-like-prefixed string accepted by `Date.parse` is returned by
`parseDate` unconditionally, whatever the hint, offset and locale. -/
theorem parseDate_iso {s : String} {t : Int} (tz : Int) (l : Bool) (hint : DateHint)
    (h1 : isoLikeStart (trimStr s) = true) (h2 : jsDateParse (trimStr s) = some t) :
    parseDate tz l s hint = some t := by
  have hs : s ≠ "" := by
    intro he
    rw [he] at h1
    exact absurd h1 (by decide)
  simp only [parseDate, if_neg hs, h1, if_true, h2]

/-- A numeric-pattern string with the DMY hint resolves positionally. -/
theorem parseDate_numeric_dmy {s : String} {p1 p2 p3 : Nat} (tz : Int) (l : Bool)
    (h : numericSlashOrDash (trimStr s) = some (p1, p2, p3)) :
    parseDate tz l s DateHint.dmy =
      some (mkLocalDate tz (promoteYear p3) ((p2 : Int) - 1) (p1 : Int)) := by
  have hs : s ≠ "" := by
    intro he
    rw [he, show numericSlashOrDash (trimStr "") = none from by decide] at h
    exact absurd h (by simp)
  have hiso : isoLikeStart (trimStr s) = false := numeric_not_isoLike h
  simp only [parseDate, if_neg hs, hiso, Bool.false_eq_true, if_false]
  simp [parseDateNumeric, h]

/-- A numeric-pattern string with the MDY hint resolves positionally. -/
theorem parseDate_numeric_mdy {s : String} {p1 p2 p3 : Nat} (tz : Int) (l : Bool)
    (h : numericSlashOrDash (trimStr s) = some (p1, p2, p3)) :
    parseDate tz l s DateHint.mdy =
      some (mkLocalDate tz (promoteYear p3) ((p1 : Int) - 1) (p2 : Int)) := by
  have hs : s ≠ "" := by
    intro he
    rw [he, show numericSlashOrDash (trimStr "") = none from by decide] at h
    exact absurd h (by simp)
  have hiso : isoLikeStart (trimStr s) = false := numeric_not_isoLike h
  simp only [parseDate, if_neg hs, hiso, Bool.false_eq_true, if_false]
  simp [parseDateNumeric, h]

/-- A string the date-only ISO parser accepts has the ISO-like prefix. -/
theorem isoDateOnly_isoLike {s : String} {v : Int × Int × Int}
    (h : isoDateOnlyParse s.data = some v) : isoLikeStart s = true := by
  unfold isoDateOnlyParse at h
  split at h
  next y1 y2 y3 y4 m1 m2 d1 d2 heq =>
    have hall : ([y1, y2, y3, y4, m1, m2, d1, d2].all Char.isDigit) = true := by
      by_contra hc
      rw [if_neg hc] at h
      exact absurd h (by simp)
    simp only [List.all_eq_true, List.mem_cons, forall_eq_or_imp] at hall
    rw [isoLikeStart, heq]
    simp [hall.1, hall.2.1, hall.2.2.1, hall.2.2.2.1]
  next => exact absurd h (by simp)

/-- Source: `Date.parse` on a string the date-only ISO parser accepts. -/
theorem jsDateParse_of_isoDateOnly {s : String} {y m d : Int}
    (h : isoDateOnlyParse s.data = some (y, m, d)) :
    jsDateParse s = some (1440 * daysFromCivil y m d) := by
  simp only [jsDateParse, h]

/-- A successfully parsed row's `date` is the ISO rendering of what
`parseDate` resolved for its (raw) date cell. -/
theorem parseRow_inv {tz : Int} {l : Bool} {hint : DateHint} {headerLen dIdx descIdx : Nat}
    {cols : AmountCols} {line : String} {t : ParsedTransaction}
    (h : parseRow tz l hint headerLen dIdx descIdx cols line = some t) :
    ∃ dt, parseDate tz l t.rawDate hint = some dt ∧ t.date = isoRender dt := by
  simp only [parseRow] at h
  split at h
  next => exact absurd h (by simp)
  next =>
    split at h
    next => exact absurd h (by simp)
    next dt hdt =>
      split at h
      next => exact absurd h (by simp)
      next hdesc =>
        obtain rfl := Option.some_inj.mp h
        exact ⟨dt, hdt, rfl⟩

/-- A parsed transaction of the CSV body satisfies `parseRow_inv`. -/
theorem csvParsedRows_mem {tz : Int} {l : Bool} {content : String} {hint : DateHint}
    {t : ParsedTransaction} (h : t ∈ csvParsedRows tz l content hint) :
    ∃ dt, parseDate tz l t.rawDate hint = some dt ∧ t.date = isoRender dt := by
  unfold csvParsedRows at h
  rcases List.mem_filterMap.mp h with ⟨line, -, hline⟩
  exact parseRow_inv hline

/-- A non-throwing parse returns exactly the processed body rows (the
fewer-than-two-lines early return included: its body is empty). -/
theorem parseCSV_ok_rows {tz : Int} {l : Bool} {content : String} {hint : DateHint}
    {ts : List ParsedTransaction} (h : parseCSV tz l content hint = .ok ts) :
    ts = csvParsedRows tz l content hint := by
  simp only [parseCSV] at h
  by_cases h1 : (csvNonBlankLines content).length < 2
  · rw [if_pos h1] at h
    injection h with h'
    rw [← h']
    unfold csvParsedRows
    have hd : (csvNonBlankLines content).drop 1 = [] :=
      List.drop_eq_nil_iff.mpr (by omega)
    rw [hd]
    simp
  · rw [if_neg h1] at h
    by_cases h2 : csvDateIdx content = none
    · rw [if_pos h2] at h
      exact absurd h (by simp)
    · rw [if_neg h2] at h
      by_cases h3 : csvDescIdx content = none
      · rw [if_pos h3] at h
        exact absurd h (by simp)
      · rw [if_neg h3] at h
        by_cases h4 : csvAmountIdx content = none ∧
            ¬(csvCreditIdx content ≠ none ∧ csvDebitIdx content ≠ none)
        · rw [if_pos h4] at h
          exact absurd h (by simp)
        · rw [if_neg h4] at h
          by_cases h5 : csvParsedRows tz l content hint = []
          · rw [if_pos h5] at h
            exact absurd h (by simp)
          · rw [if_neg h5] at h
            injection h with h'
            exact h'.symm

/-- Rules that do not match are skipped by the matching loop. -/
theorem ruleFirstMatchAux_append (descL : String) (pre rest : List Rule)
    (hpre : ∀ r' ∈ pre, ruleMatches r' descL = false) :
    ruleFirstMatchAux descL (pre ++ rest) = ruleFirstMatchAux descL rest := by
  induction pre with
  | nil => rfl
  | cons a as ih =>
    rw [List.cons_append, ruleFirstMatchAux, if_neg (by simp [hpre a (by simp)])]
    exact ih (fun r' hr' => hpre r' (by simp [hr']))

/-! ## Claims -/

/-- C1: evidence that the claim fails on the code (code bug).  For the
request batch of indices 0, 1, 2 and a catalog whose only category id is
`"cat-food"`, a response carrying index 5 (never requested) and the
categoryId `"cat-doesnotexist"` (absent from the catalog) ends up in the
result map of `getCategoryBatchFromAIService` unfiltered: the spec's
mandated discarding of such entries is not implemented. -/
theorem C1_ai_result_map_keeps_malformed_entries :
    mapGet (getCategoryBatchFromAIService [("coffee", 0), ("rent", 1), ("salary", 2)]
        [{ id := "cat-food", name := "Food", color := "", icon := "" }]
        (some [(5, "cat-food"), (1, "cat-doesnotexist"), (0, "cat-food")])) 5 =
      some "cat-food"
    ∧ mapGet (getCategoryBatchFromAIService [("coffee", 0), ("rent", 1), ("salary", 2)]
        [{ id := "cat-food", name := "Food", color := "", icon := "" }]
        (some [(5, "cat-food"), (1, "cat-doesnotexist"), (0, "cat-food")])) 1 =
      some "cat-doesnotexist"
    ∧ (5 : Int) ∉ [("coffee", (0 : Int)), ("rent", 1), ("salary", 2)].map Prod.snd
    ∧ "cat-doesnotexist" ∉
        ([{ id := "cat-food", name := "Food", color := "", icon := "" }] : List Category).map
          Category.id := by
  decide

/-- C2 counterexample: an input with a single non-blank line makes
`parseCSV` return the empty list rather than throw, refuting the claim's
fewer-than-two-lines error condition. -/
theorem C2_counterexample_single_line_returns_ok :
    parseCSV 0 false "date,description,amount" DateHint.auto = .ok [] := by
  decide

/-- C2 (amended): `parseCSV` throws exactly when the input has at least
two non-blank lines and (no date column, or no description column, or
neither an amount column nor a credit+debit pair, or zero rows parsed);
fewer than two non-blank lines returns the empty list without throwing,
and every non-throwing run returns exactly the processed body rows. -/
theorem C2_parseCSV_error_iff :
    ∀ (tz : Int) (l : Bool) (content : String) (hint : DateHint),
      ((∃ e, parseCSV tz l content hint = .error e) ↔
        2 ≤ (csvNonBlankLines content).length ∧
          (csvDateIdx content = none ∨ csvDescIdx content = none ∨
            (csvAmountIdx content = none ∧
              ¬(csvCreditIdx content ≠ none ∧ csvDebitIdx content ≠ none)) ∨
            csvParsedRows tz l content hint = []))
      ∧ ∀ ts, parseCSV tz l content hint = .ok ts →
          ts = csvParsedRows tz l content hint := by
  intro tz l content hint
  refine ⟨?_, fun ts h => parseCSV_ok_rows h⟩
  simp only [parseCSV]
  by_cases h1 : (csvNonBlankLines content).length < 2
  · rw [if_pos h1]
    constructor
    · rintro ⟨e, he⟩
      exact absurd he (by simp)
    · rintro ⟨hlen, -⟩
      omega
  · rw [if_neg h1]
    by_cases h2 : csvDateIdx content = none
    · rw [if_pos h2]
      exact ⟨fun _ => ⟨by omega, Or.inl h2⟩, fun _ => ⟨_, rfl⟩⟩
    · rw [if_neg h2]
      by_cases h3 : csvDescIdx content = none
      · rw [if_pos h3]
        exact ⟨fun _ => ⟨by omega, Or.inr (Or.inl h3)⟩, fun _ => ⟨_, rfl⟩⟩
      · rw [if_neg h3]
        by_cases h4 : csvAmountIdx content = none ∧
            ¬(csvCreditIdx content ≠ none ∧ csvDebitIdx content ≠ none)
        · rw [if_pos h4]
          exact ⟨fun _ => ⟨by omega, Or.inr (Or.inr (Or.inl h4))⟩, fun _ => ⟨_, rfl⟩⟩
        · rw [if_neg h4]
          by_cases h5 : csvParsedRows tz l content hint = []
          · rw [if_pos h5]
            exact ⟨fun _ => ⟨by omega, Or.inr (Or.inr (Or.inr h5))⟩, fun _ => ⟨_, rfl⟩⟩
          · rw [if_neg h5]
            constructor
            · rintro ⟨e, he⟩
              exact absurd he (by simp)
            · rintro ⟨-, hdis⟩
              rcases hdis with h | h | h | h
              · exact absurd h h2
              · exact absurd h h3
              · exact absurd h h4
              · exact absurd h h5

/-- C6: rule matching is first-match-wins over the ordered list — the
first rule whose condition matches determines the category, and rules
after the first match cannot affect the outcome — and on the spec's
example the earlier `contains "STAR"` rule beats the later
`contains "STARBUCKS"` for the description `"STARBUCKS #123"`. -/
theorem C6_rule_first_match_wins :
    (∀ (description : String) (pre post : List Rule) (r : Rule),
      (∀ r' ∈ pre, ruleMatches r' (lowerStr description) = false) →
      ruleMatches r (lowerStr description) = true →
      ruleFirstMatch (pre ++ r :: post) description = some r.categoryId ∧
        ∀ post' : List Rule,
          ruleFirstMatch (pre ++ r :: post) description =
            ruleFirstMatch (pre ++ r :: post') description)
    ∧ ruleFirstMatch
        [{ id := "r1", conditionType := .contains, conditionValue := "STAR",
           categoryId := "catA" },
         { id := "r2", conditionType := .contains, conditionValue := "STARBUCKS",
           categoryId := "catB" }]
        "STARBUCKS #123" = some "catA" := by
  constructor
  · intro description pre post r hpre hr
    have key : ∀ post'' : List Rule,
        ruleFirstMatch (pre ++ r :: post'') description = some r.categoryId := by
      intro post''
      unfold ruleFirstMatch
      rw [ruleFirstMatchAux_append _ pre _ hpre, ruleFirstMatchAux, if_pos hr]
    exact ⟨key post, fun post' => (key post).trans (key post').symm⟩
  · decide

/-- C7: the import deduplicator keeps exactly the parsed transactions
whose fingerprint (date, amount, normalized description) is absent from
the existing ledger; consequently no kept row shares a fingerprint with a
ledger transaction (re-importing an already-present row adds nothing). -/
theorem C7_dedupe_fingerprint_filter :
    (∀ (existing : List Transaction) (parsed : List ParsedTransaction)
      (p : ParsedTransaction),
      p ∈ dedupeNewTransactions existing parsed ↔
        p ∈ parsed ∧ fingerprintOfParsed p ∉ existing.map fingerprintOfTransaction)
    ∧ (∀ (existing : List Transaction) (parsed : List ParsedTransaction)
      (t : Transaction) (q : ParsedTransaction), t ∈ existing →
        q ∈ dedupeNewTransactions existing parsed →
        fingerprintOfParsed q ≠ fingerprintOfTransaction t) := by
  constructor
  · intro existing parsed p
    simp [dedupeNewTransactions, List.mem_filter]
  · intro existing parsed t q ht hq heq
    rw [dedupeNewTransactions] at hq
    have h2 := (List.mem_filter.mp hq).2
    simp only [decide_eq_true_eq] at h2
    exact h2 (heq ▸ List.mem_map_of_mem fingerprintOfTransaction ht)

/-- C10: the dedup filter consults only the pre-existing ledger's
fingerprint set, so two identical new rows in one file (fingerprints equal
and absent from the ledger) both pass the deduplicator. -/
theorem C10_within_file_duplicates_both_kept :
    ∀ (existing : List Transaction) (xs ys zs : List ParsedTransaction)
      (p q : ParsedTransaction),
      fingerprintOfParsed p = fingerprintOfParsed q →
      fingerprintOfParsed p ∉ existing.map fingerprintOfTransaction →
      dedupeNewTransactions existing (xs ++ p :: (ys ++ q :: zs)) =
        dedupeNewTransactions existing xs ++
          p :: (dedupeNewTransactions existing ys ++
            q :: dedupeNewTransactions existing zs) := by
  intro existing xs ys zs p q hpq hp
  have hq : fingerprintOfParsed q ∉ existing.map fingerprintOfTransaction := hpq ▸ hp
  simp only [dedupeNewTransactions, List.filter_append, List.filter_cons, decide_eq_true_eq,
    List.mem_map, not_exists, not_and]
  simp only [List.mem_map, not_exists, not_and] at hp hq
  rw [if_pos hp, if_pos hq]

/-- C3 counterexample: `"9999-01-01T00:30Z"` has the ISO-like prefix and
`Date.parse` accepts it, so `parseDate` returns it although its year 9999
is far outside (1900, 2100) — the code has no year check on the ISO fast
path, while the spec's algorithm (`parseDateSpec`) rejects the string
outright. -/
theorem C3_counterexample_iso_year_unchecked :
    parseDate 0 false "9999-01-01T00:30Z" DateHint.auto =
      some (1440 * daysFromCivil 9999 1 1 + 30)
    ∧ localYear 0 (1440 * daysFromCivil 9999 1 1 + 30) = 9999
    ∧ parseDateSpec 0 false "9999-01-01T00:30Z" DateHint.auto = none := by
  decide

/-- C3 (amended): step 1 of the disambiguator accepts any successful ISO
parse of an ISO-like-prefixed string regardless of the resulting year (the
(1900, 2100) year check applies only to the later generic-parse fallback);
step 2 interprets the numeric slash/dash pattern positionally per a DMY or
MDY hint with two-digit years promoted by 2000; `"05/12/2025"` resolves to
local midnight of 2025-12-05 under DMY and of 2025-05-12 under MDY, and
`"2025-12-05"` resolves to UTC midnight of 2025-12-05 under every hint. -/
theorem C3_date_disambiguator_first_two_steps :
    (∀ (tz : Int) (l : Bool) (s : String) (hint : DateHint) (t : Int),
      isoLikeStart (trimStr s) = true → jsDateParse (trimStr s) = some t →
      parseDate tz l s hint = some t)
    ∧ (∀ (tz : Int) (l : Bool) (s : String) (p1 p2 p3 : Nat),
      numericSlashOrDash (trimStr s) = some (p1, p2, p3) →
      parseDate tz l s DateHint.dmy =
        some (mkLocalDate tz (promoteYear p3) ((p2 : Int) - 1) (p1 : Int)) ∧
      parseDate tz l s DateHint.mdy =
        some (mkLocalDate tz (promoteYear p3) ((p1 : Int) - 1) (p2 : Int)))
    ∧ (∀ (tz : Int) (l : Bool),
      parseDate tz l "05/12/2025" DateHint.dmy =
        some (1440 * daysFromCivil 2025 12 5 - tz) ∧
      parseDate tz l "05/12/2025" DateHint.mdy =
        some (1440 * daysFromCivil 2025 5 12 - tz) ∧
      ∀ hint, parseDate tz l "2025-12-05" hint = some (1440 * daysFromCivil 2025 12 5)) := by
  refine ⟨fun tz l s hint t h1 h2 => parseDate_iso tz l hint h1 h2,
    fun tz l s p1 p2 p3 h => ⟨parseDate_numeric_dmy tz l h, parseDate_numeric_mdy tz l h⟩,
    fun tz l => ⟨?_, ?_, fun hint => ?_⟩⟩
  · rw [parseDate_numeric_dmy tz l
      (show numericSlashOrDash (trimStr "05/12/2025") = some (5, 12, 2025) from by decide)]
    rw [show mkLocalDate tz (promoteYear 2025) (((12 : Nat) : Int) - 1) ((5 : Nat) : Int) =
        1440 * daysFromCivil 2025 12 5 - tz from by
      rw [mkLocalDate,
        show jsMkDay (promoteYear 2025) (((12 : Nat) : Int) - 1) ((5 : Nat) : Int) =
          daysFromCivil 2025 12 5 from by decide]]
  · rw [parseDate_numeric_mdy tz l
      (show numericSlashOrDash (trimStr "05/12/2025") = some (5, 12, 2025) from by decide)]
    rw [show mkLocalDate tz (promoteYear 2025) (((5 : Nat) : Int) - 1) ((12 : Nat) : Int) =
        1440 * daysFromCivil 2025 5 12 - tz from by
      rw [mkLocalDate,
        show jsMkDay (promoteYear 2025) (((5 : Nat) : Int) - 1) ((12 : Nat) : Int) =
          daysFromCivil 2025 5 12 from by decide]]
  · exact parseDate_iso tz l hint (by decide)
      (show jsDateParse (trimStr "2025-12-05") = some (1440 * daysFromCivil 2025 12 5) from by
        decide)

/-- C4 counterexample: in a runtime 600 minutes east of UTC, the DMY row
`05/12/2025` parses to the calendar day 2025-12-05 but is stored as
`2025-12-04T14:00:00.000Z` — local midnight converted to UTC, not midnight
UTC of the parsed calendar day. -/
theorem C4_counterexample_local_midnight :
    parseCSV 600 false "Date,Description,Amount\n05/12/2025,Coffee,-4.50" DateHint.dmy =
      .ok [{ date := "2025-12-04T14:00:00.000Z", rawDate := "05/12/2025",
             description := "Coffee", amount := mkRat (-450) 100 }]
    ∧ "2025-12-04T14:00:00.000Z" ≠ isoRender (1440 * daysFromCivil 2025 12 5) := by
  decide

/-- C4 (amended): a successfully parsed row whose (trimmed) date cell is a
date-only ISO form is stored at midnight UTC of that calendar day; one
matching the numeric slash/dash pattern under a DMY or MDY hint is stored
at midnight of the hint-interpreted calendar day in the runtime's local
timezone, rendered in UTC — equal to midnight UTC exactly when the
runtime's offset is zero. -/
theorem C4_parsed_dates_midnight :
    ∀ (tz : Int) (l : Bool) (content : String) (hint : DateHint)
      (ts : List ParsedTransaction) (t : ParsedTransaction),
      parseCSV tz l content hint = .ok ts → t ∈ ts →
      (∀ y m d : Int, isoDateOnlyParse (trimStr t.rawDate).data = some (y, m, d) →
        t.date = isoRender (1440 * daysFromCivil y m d))
      ∧ (∀ p1 p2 p3 : Nat, numericSlashOrDash (trimStr t.rawDate) = some (p1, p2, p3) →
          (hint = DateHint.dmy →
            t.date = isoRender (mkLocalDate tz (promoteYear p3) ((p2 : Int) - 1) (p1 : Int))) ∧
          (hint = DateHint.mdy →
            t.date = isoRender (mkLocalDate tz (promoteYear p3) ((p1 : Int) - 1) (p2 : Int)))) := by
  intro tz l content hint ts t hok hmem
  obtain ⟨dt, hdt, hdate⟩ := csvParsedRows_mem (parseCSV_ok_rows hok ▸ hmem)
  constructor
  · intro y m d hiso
    have h2 : jsDateParse (trimStr t.rawDate) = some (1440 * daysFromCivil y m d) :=
      jsDateParse_of_isoDateOnly hiso
    have hpd := parseDate_iso (s := t.rawDate) tz l hint (isoDateOnly_isoLike hiso) h2
    rw [hdate, Option.some_inj.mp (hdt.symm.trans hpd)]
  · intro p1 p2 p3 hnum
    constructor
    · rintro rfl
      have hpd := parseDate_numeric_dmy (s := t.rawDate) tz l hnum
      rw [hdate, Option.some_inj.mp (hdt.symm.trans hpd)]
    · rintro rfl
      have hpd := parseDate_numeric_mdy (s := t.rawDate) tz l hnum
      rw [hdate, Option.some_inj.mp (hdt.symm.trans hpd)]

/-- C5: on both pipeline paths, a transaction with no matching rule that
the AI leaves unresolved ends with the id of the catalog category named
`"income"` (case-insensitively, via `incomeLookup` — not a hardcoded id)
when its amount is strictly positive and such a category exists (with a
truthy id); with no income category a positive amount stays
`"cat-uncategorized"`, and a zero or negative amount always ends
`"cat-uncategorized"`. -/
theorem C5_income_fallback :
    (∀ (now batchSize : Nat) (ai : AIOracle) (pts : List ParsedTransaction)
      (rules : List Rule) (cats : List Category) (i : Nat) (pt : ParsedTransaction),
      pts[i]? = some pt →
      ruleFirstMatch rules pt.description = none →
      (∀ req, truthyOpt (mapGet (getCategoryBatchFromAIService req cats (ai req)) (i : Int)) =
        none) →
      ∃ t, (categorizeTransactions now batchSize ai pts rules cats)[i]? = some t ∧
        (∀ incomeId, incomeLookup cats = some incomeId → incomeId ≠ "" → 0 < pt.amount →
          t.categoryId = some incomeId) ∧
        (incomeLookup cats = none → 0 < pt.amount → t.categoryId = some "cat-uncategorized") ∧
        (pt.amount ≤ 0 → t.categoryId = some "cat-uncategorized"))
    ∧ (∀ (batchSize : Nat) (ai : AIOracle) (uncat : List Transaction)
      (rules : List Rule) (cats : List Category) (i : Nat) (tx : Transaction),
      uncat[i]? = some tx →
      ruleFirstMatch rules tx.description = none →
      (∀ req, truthyOpt (mapGet (getCategoryBatchFromAIService req cats (ai req)) (i : Int)) =
        none) →
      ∃ t, (recategorizeUncategorizedTransactions batchSize ai uncat rules cats)[i]? = some t ∧
        (∀ incomeId, incomeLookup cats = some incomeId → incomeId ≠ "" → 0 < tx.amount →
          t.categoryId = some incomeId) ∧
        (incomeLookup cats = none → 0 < tx.amount → t.categoryId = some "cat-uncategorized") ∧
        (tx.amount ≤ 0 → t.categoryId = some "cat-uncategorized")) := by
  constructor
  · intro now batchSize ai pts rules cats i pt hp hr hai
    obtain ⟨req, hres⟩ := categorize_ai_at now batchSize ai pts rules cats hp hr
    rw [hai req] at hres
    refine ⟨_, hres, ?_, ?_, ?_⟩
    · intro incomeId hinc hne hpos
      simp [processAIItem, hpos, hinc, truthyOpt, jsOrStr, hne]
    · intro hnone hpos
      simp [processAIItem, hpos, hnone, truthyOpt, jsOrStr]
    · intro hneg
      simp [processAIItem, not_lt.mpr hneg, jsOrStr]
  · intro batchSize ai uncat rules cats i tx hp hr hai
    obtain ⟨req, hres⟩ := recategorize_ai_at batchSize ai uncat rules cats hp hr
    rw [hai req] at hres
    refine ⟨_, hres, ?_, ?_, ?_⟩
    · intro incomeId hinc hne hpos
      simp [recatAIItem, hpos, hinc, truthyOpt, jsOrStr, hne]
    · intro hnone hpos
      simp [recatAIItem, hpos, hnone, truthyOpt, jsOrStr]
    · intro hneg
      simp [recatAIItem, not_lt.mpr hneg, jsOrStr]

/-- C8: the recategorize path returns a list of the input's length whose
entry at every position keeps that input transaction's `id`, `date`,
`amount` and `description` unchanged, whatever the oracle returns. -/
theorem C8_recategorize_preserves_identity :
    ∀ (batchSize : Nat) (ai : AIOracle) (uncat : List Transaction)
      (rules : List Rule) (cats : List Category),
      (recategorizeUncategorizedTransactions batchSize ai uncat rules cats).length =
        uncat.length
      ∧ ∀ (i : Nat) (tx : Transaction), uncat[i]? = some tx →
          ∃ t, (recategorizeUncategorizedTransactions batchSize ai uncat rules cats)[i]? =
              some t ∧
            t.id = tx.id ∧ t.date = tx.date ∧ t.amount = tx.amount ∧
            t.description = tx.description := by
  intro batchSize ai uncat rules cats
  constructor
  · simp [recategorizeUncategorizedTransactions, enumFrom_length]
  · intro i tx hp
    have hres := recategorize_getElem? batchSize ai uncat rules cats hp
    cases hr : ruleFirstMatch rules tx.description with
    | some cid =>
      rw [hr] at hres
      exact ⟨_, hres, rfl, rfl, rfl, rfl⟩
    | none =>
      rw [hr] at hres
      cases hl : (recategorizeAIOut batchSize ai uncat rules cats).lookup i with
      | none =>
        rw [hl] at hres
        exact ⟨_, hres, rfl, rfl, rfl, rfl⟩
      | some v =>
        obtain ⟨b, hb⟩ := recategorizeAIOut_lookup batchSize ai uncat rules cats hp hr
        rw [hb] at hres
        exact ⟨_, hres, rfl, rfl, rfl, rfl⟩

/-- C9: every transaction the two pipeline paths produce has at most one
provenance flag set; `applyRule` rewrites carry `(rule := true, ai :=
false)`; and a manual category edit clears both flags while setting the
chosen category. -/
theorem C9_provenance_flags_invariant :
    (∀ (now batchSize : Nat) (ai : AIOracle) (pts : List ParsedTransaction)
      (rules : List Rule) (cats : List Category) (t : Transaction),
      t ∈ categorizeTransactions now batchSize ai pts rules cats →
      ¬(t.categorizedByRule = true ∧ t.categorizedByAI = true))
    ∧ (∀ (batchSize : Nat) (ai : AIOracle) (uncat : List Transaction)
      (rules : List Rule) (cats : List Category) (t : Transaction),
      t ∈ recategorizeUncategorizedTransactions batchSize ai uncat rules cats →
      ¬(t.categorizedByRule = true ∧ t.categorizedByAI = true))
    ∧ (∀ (rule : Rule) (txns : List Transaction) (t : Transaction),
      t ∈ applyRuleUpdates rule txns →
      t.categorizedByRule = true ∧ t.categorizedByAI = false)
    ∧ (∀ (txns : List Transaction) (tid cid : String) (i : Nat) (t : Transaction),
      txns[i]? = some t → t.id = tid →
      ∃ t', (handleCategoryChange txns tid cid)[i]? = some t' ∧
        t'.categorizedByRule = false ∧ t'.categorizedByAI = false ∧
        t'.categoryId = some cid) := by
  refine ⟨?_, ?_, ?_, ?_⟩
  · intro now batchSize ai pts rules cats t ht
    obtain ⟨i, hi⟩ := List.mem_iff_getElem?.mp ht
    have hlen : i < pts.length := by
      by_contra hge
      rw [List.getElem?_eq_none (by
        simpa [categorizeTransactions, enumFrom_length] using Nat.le_of_not_lt hge)] at hi
      exact absurd hi (by simp)
    have hp : pts[i]? = some pts[i] := List.getElem?_eq_getElem hlen
    cases hr : ruleFirstMatch rules pts[i].description with
    | some cid =>
      have hres := categorize_getElem? now batchSize ai pts rules cats hp
      rw [hr] at hres
      obtain rfl := Option.some_inj.mp (hi.symm.trans hres)
      simp
    | none =>
      obtain ⟨req, hres⟩ := categorize_ai_at now batchSize ai pts rules cats hp hr
      obtain rfl := Option.some_inj.mp (hi.symm.trans hres)
      simp [processAIItem]
  · intro batchSize ai uncat rules cats t ht
    obtain ⟨i, hi⟩ := List.mem_iff_getElem?.mp ht
    have hlen : i < uncat.length := by
      by_contra hge
      rw [List.getElem?_eq_none (by
        simpa [recategorizeUncategorizedTransactions, enumFrom_length] using
          Nat.le_of_not_lt hge)] at hi
      exact absurd hi (by simp)
    have hp : uncat[i]? = some uncat[i] := List.getElem?_eq_getElem hlen
    cases hr : ruleFirstMatch rules uncat[i].description with
    | some cid =>
      have hres := recategorize_getElem? batchSize ai uncat rules cats hp
      rw [hr] at hres
      obtain rfl := Option.some_inj.mp (hi.symm.trans hres)
      simp
    | none =>
      obtain ⟨req, hres⟩ := recategorize_ai_at batchSize ai uncat rules cats hp hr
      obtain rfl := Option.some_inj.mp (hi.symm.trans hres)
      simp [recatAIItem]
  · intro rule txns t ht
    rw [applyRuleUpdates] at ht
    rcases List.mem_filterMap.mp ht with ⟨a, -, ha⟩
    split_ifs at ha with hc
    obtain rfl := Option.some_inj.mp ha
    exact ⟨rfl, rfl⟩
  · intro txns tid cid i t hp hid
    refine ⟨{ t with categoryId := some cid, categorizedByRule := false,
                     categorizedByAI := false },
      ?_, rfl, rfl, rfl⟩
    rw [handleCategoryChange, List.getElem?_map, hp]
    simp [hid]

/-! ## Witnesses -/

/-- C2 witness: a concrete successful parse returns exactly the processed
body rows. -/
theorem C2_parseCSV_error_iff_witness :
    [({ date := "2025-12-05T00:00:00.000Z", rawDate := "2025-12-05", description := "Coffee",
        amount := mkRat (-450) 100 } : ParsedTransaction)] =
      csvParsedRows 0 false "Date,Description,Amount\n2025-12-05,Coffee,-4.50"
        DateHint.auto :=
  (C2_parseCSV_error_iff 0 false "Date,Description,Amount\n2025-12-05,Coffee,-4.50"
    DateHint.auto).2 _ (by decide)

/-- C3 witness: the hint step at the spec's example string. -/
theorem C3_date_disambiguator_witness :
    parseDate 0 false "05/12/2025" DateHint.dmy =
      some (mkLocalDate 0 (promoteYear 2025) (((12 : Nat) : Int) - 1) ((5 : Nat) : Int)) ∧
    parseDate 0 false "05/12/2025" DateHint.mdy =
      some (mkLocalDate 0 (promoteYear 2025) (((5 : Nat) : Int) - 1) ((12 : Nat) : Int)) :=
  C3_date_disambiguator_first_two_steps.2.1 0 false "05/12/2025" 5 12 2025 (by decide)

/-- C4 witness: a UTC runtime stores an ISO date-only row at midnight UTC
of its calendar day. -/
theorem C4_parsed_dates_midnight_witness :
    "2025-12-05T00:00:00.000Z" = isoRender (1440 * daysFromCivil 2025 12 5) :=
  (C4_parsed_dates_midnight 0 false "Date,Description,Amount\n2025-12-05,Coffee,-4.50"
    DateHint.auto
    [{ date := "2025-12-05T00:00:00.000Z", rawDate := "2025-12-05", description := "Coffee",
       amount := mkRat (-450) 100 }]
    { date := "2025-12-05T00:00:00.000Z", rawDate := "2025-12-05", description := "Coffee",
      amount := mkRat (-450) 100 }
    (by decide) (by decide)).1 2025 12 5 (by decide)

/-- C5 witness: the spec's example — an AI-unresolved `+50` transaction
resolves to the income category, an AI-unresolved `-50` one (on the
recategorize path) to `"cat-uncategorized"`. -/
theorem C5_income_fallback_witness :
    (∃ t, (categorizeTransactions 0 50 (fun _ => none)
        [{ date := "d", rawDate := "r", description := "SALARY PTY LTD",
           amount := mkRat 50 1 }]
        [] [{ id := "cat-income", name := "Income", color := "", icon := "" }])[0]? =
          some t ∧
      (∀ incomeId,
        incomeLookup [{ id := "cat-income", name := "Income", color := "", icon := "" }] =
          some incomeId → incomeId ≠ "" →
        0 < (mkRat 50 1 : ℚ) → t.categoryId = some incomeId) ∧
      (incomeLookup [{ id := "cat-income", name := "Income", color := "", icon := "" }] =
          none → 0 < (mkRat 50 1 : ℚ) → t.categoryId = some "cat-uncategorized") ∧
      ((mkRat 50 1 : ℚ) ≤ 0 → t.categoryId = some "cat-uncategorized"))
    ∧ (∃ t, (recategorizeUncategorizedTransactions 50 (fun _ => none)
        [{ id := "t1", date := "d", rawDate := none, description := "misc",
           amount := mkRat (-50) 1, categoryId := some "cat-uncategorized", notes := none,
           categorizedByRule := false, categorizedByAI := false }]
        [] [{ id := "cat-income", name := "Income", color := "", icon := "" }])[0]? =
          some t ∧
      (∀ incomeId,
        incomeLookup [{ id := "cat-income", name := "Income", color := "", icon := "" }] =
          some incomeId → incomeId ≠ "" →
        0 < (mkRat (-50) 1 : ℚ) → t.categoryId = some incomeId) ∧
      (incomeLookup [{ id := "cat-income", name := "Income", color := "", icon := "" }] =
          none → 0 < (mkRat (-50) 1 : ℚ) → t.categoryId = some "cat-uncategorized") ∧
      ((mkRat (-50) 1 : ℚ) ≤ 0 → t.categoryId = some "cat-uncategorized")) :=
  ⟨C5_income_fallback.1 0 50 (fun _ => none)
      [{ date := "d", rawDate := "r", description := "SALARY PTY LTD",
         amount := mkRat 50 1 }]
      [] [{ id := "cat-income", name := "Income", color := "", icon := "" }] 0
      { date := "d", rawDate := "r", description := "SALARY PTY LTD", amount := mkRat 50 1 }
      (by decide) (by decide) (fun req => rfl),
    C5_income_fallback.2 50 (fun _ => none)
      [{ id := "t1", date := "d", rawDate := none, description := "misc",
         amount := mkRat (-50) 1, categoryId := some "cat-uncategorized", notes := none,
         categorizedByRule := false, categorizedByAI := false }]
      [] [{ id := "cat-income", name := "Income", color := "", icon := "" }] 0
      { id := "t1", date := "d", rawDate := none, description := "misc",
        amount := mkRat (-50) 1, categoryId := some "cat-uncategorized", notes := none,
        categorizedByRule := false, categorizedByAI := false }
      (by decide) (by decide) (fun req => rfl)⟩

/-- C6 witness: the STARBUCKS example through the general first-match
theorem. -/
theorem C6_rule_first_match_wins_witness :
    ruleFirstMatch
      [{ id := "r1", conditionType := .contains, conditionValue := "STAR",
         categoryId := "catA" },
       { id := "r2", conditionType := .contains, conditionValue := "STARBUCKS",
         categoryId := "catB" }]
      "STARBUCKS #123" = some "catA" :=
  (C6_rule_first_match_wins.1 "STARBUCKS #123" []
    [{ id := "r2", conditionType := .contains, conditionValue := "STARBUCKS",
       categoryId := "catB" }]
    { id := "r1", conditionType := .contains, conditionValue := "STAR", categoryId := "catA" }
    (by simp) (by decide)).1

/-- C7 witness: a kept row's fingerprint differs from a concrete ledger
transaction's. -/
theorem C7_dedupe_fingerprint_filter_witness :
    fingerprintOfParsed
      { date := "d", rawDate := "r", description := "Tea", amount := mkRat 3 1 } ≠
    fingerprintOfTransaction
      { id := "t1", date := "d", rawDate := none, description := "Coffee Shop",
        amount := mkRat 3 1, categoryId := none, notes := none,
        categorizedByRule := false, categorizedByAI := false } :=
  C7_dedupe_fingerprint_filter.2
    [{ id := "t1", date := "d", rawDate := none, description := "Coffee Shop",
       amount := mkRat 3 1, categoryId := none, notes := none,
       categorizedByRule := false, categorizedByAI := false }]
    [{ date := "d", rawDate := "r", description := "Tea", amount := mkRat 3 1 }]
    _ _ (by decide) (by decide)

/-- C8 witness: at a concrete input, the output has the input's length and
position 0 keeps the input transaction's identity fields. -/
theorem C8_recategorize_preserves_identity_witness :
    (recategorizeUncategorizedTransactions 50 (fun _ => none)
      [{ id := "t1", date := "d", rawDate := none, description := "misc",
         amount := mkRat (-50) 1, categoryId := some "cat-uncategorized", notes := none,
         categorizedByRule := false, categorizedByAI := false }] [] []).length =
      ([{ id := "t1", date := "d", rawDate := none, description := "misc",
          amount := mkRat (-50) 1, categoryId := some "cat-uncategorized", notes := none,
          categorizedByRule := false, categorizedByAI := false }] :
        List Transaction).length
    ∧ ∃ t, (recategorizeUncategorizedTransactions 50 (fun _ => none)
        [{ id := "t1", date := "d", rawDate := none, description := "misc",
           amount := mkRat (-50) 1, categoryId := some "cat-uncategorized", notes := none,
           categorizedByRule := false, categorizedByAI := false }] [] [])[0]? = some t ∧
      t.id = "t1" ∧ t.date = "d" ∧ t.amount = mkRat (-50) 1 ∧ t.description = "misc" :=
  ⟨(C8_recategorize_preserves_identity 50 (fun _ => none)
      [{ id := "t1", date := "d", rawDate := none, description := "misc",
         amount := mkRat (-50) 1, categoryId := some "cat-uncategorized", notes := none,
         categorizedByRule := false, categorizedByAI := false }] [] []).1,
    (C8_recategorize_preserves_identity 50 (fun _ => none)
      [{ id := "t1", date := "d", rawDate := none, description := "misc",
         amount := mkRat (-50) 1, categoryId := some "cat-uncategorized", notes := none,
         categorizedByRule := false, categorizedByAI := false }] [] []).2 0
      { id := "t1", date := "d", rawDate := none, description := "misc",
        amount := mkRat (-50) 1, categoryId := some "cat-uncategorized", notes := none,
        categorizedByRule := false, categorizedByAI := false } (by decide)⟩

/-- C9 witness: the invariant at concrete outputs of all four operations. -/
theorem C9_provenance_flags_invariant_witness :
    ¬(({ id := "txn-0-0", date := "d", rawDate := some "r", description := "COFFEE",
         amount := mkRat (-3) 1, categoryId := some "catA", notes := none,
         categorizedByRule := true, categorizedByAI := false } :
        Transaction).categorizedByRule = true ∧
      ({ id := "txn-0-0", date := "d", rawDate := some "r", description := "COFFEE",
         amount := mkRat (-3) 1, categoryId := some "catA", notes := none,
         categorizedByRule := true, categorizedByAI := false } :
        Transaction).categorizedByAI = true)
    ∧ ¬(({ id := "t1", date := "d", rawDate := none, description := "COFFEE",
           amount := mkRat (-3) 1, categoryId := some "catA", notes := none,
           categorizedByRule := true, categorizedByAI := false } :
          Transaction).categorizedByRule = true ∧
        ({ id := "t1", date := "d", rawDate := none, description := "COFFEE",
           amount := mkRat (-3) 1, categoryId := some "catA", notes := none,
           categorizedByRule := true, categorizedByAI := false } :
          Transaction).categorizedByAI = true)
    ∧ (({ id := "t1", date := "d", rawDate := none, description := "COFFEE",
          amount := mkRat (-3) 1, categoryId := some "catA", notes := none,
          categorizedByRule := true, categorizedByAI := false } :
         Transaction).categorizedByRule = true ∧
       ({ id := "t1", date := "d", rawDate := none, description := "COFFEE",
          amount := mkRat (-3) 1, categoryId := some "catA", notes := none,
          categorizedByRule := true, categorizedByAI := false } :
         Transaction).categorizedByAI = false)
    ∧ ∃ t', (handleCategoryChange
        [{ id := "t1", date := "d", rawDate := none, description := "COFFEE",
           amount := mkRat (-3) 1, categoryId := none, notes := none,
           categorizedByRule := false, categorizedByAI := true }] "t1" "catB")[0]? =
          some t' ∧
      t'.categorizedByRule = false ∧ t'.categorizedByAI = false ∧
      t'.categoryId = some "catB" :=
  ⟨C9_provenance_flags_invariant.1 0 50 (fun _ => none)
      [{ date := "d", rawDate := "r", description := "COFFEE", amount := mkRat (-3) 1 }]
      [{ id := "r1", conditionType := .contains, conditionValue := "COF",
         categoryId := "catA" }] [] _ (by decide),
    C9_provenance_flags_invariant.2.1 50 (fun _ => none)
      [{ id := "t1", date := "d", rawDate := none, description := "COFFEE",
         amount := mkRat (-3) 1, categoryId := none, notes := none,
         categorizedByRule := false, categorizedByAI := true }]
      [{ id := "r1", conditionType := .contains, conditionValue := "COF",
         categoryId := "catA" }] [] _ (by decide),
    C9_provenance_flags_invariant.2.2.1
      { id := "r1", conditionType := .contains, conditionValue := "COF",
        categoryId := "catA" }
      [{ id := "t1", date := "d", rawDate := none, description := "COFFEE",
         amount := mkRat (-3) 1, categoryId := none, notes := none,
         categorizedByRule := false, categorizedByAI := true }] _ (by decide),
    C9_provenance_flags_invariant.2.2.2
      [{ id := "t1", date := "d", rawDate := none, description := "COFFEE",
         amount := mkRat (-3) 1, categoryId := none, notes := none,
         categorizedByRule := false, categorizedByAI := true }] "t1" "catB" 0
      { id := "t1", date := "d", rawDate := none, description := "COFFEE",
        amount := mkRat (-3) 1, categoryId := none, notes := none,
        categorizedByRule := false, categorizedByAI := true }
      (by decide) (by decide)⟩

/-- C10 witness: two identical new rows both pass the deduplicator. -/
theorem C10_within_file_duplicates_both_kept_witness :
    dedupeNewTransactions []
      [{ date := "d", rawDate := "r", description := "Coffee", amount := mkRat (-3) 1 },
       { date := "d", rawDate := "r", description := "Coffee", amount := mkRat (-3) 1 }] =
    [{ date := "d", rawDate := "r", description := "Coffee", amount := mkRat (-3) 1 },
     { date := "d", rawDate := "r", description := "Coffee", amount := mkRat (-3) 1 }] :=
  C10_within_file_duplicates_both_kept [] [] [] []
    { date := "d", rawDate := "r", description := "Coffee", amount := mkRat (-3) 1 }
    { date := "d", rawDate := "r", description := "Coffee", amount := mkRat (-3) 1 }
    rfl (by decide)

end BudgetFinance
